import Mathlib

/-!
Verification development for the protonfixes utility module (`util.py`).

Shallow embedding conventions:
* Python strings are embedded as `List Char` (`PyStr`); `str.strip`,
  `str.split` and the anchored regex test of the log matcher are
  re-implemented structurally below.
* A log file on disk is `Option (List PyStr)`: `none` models the file being
  absent (opening it raises `OSError`, which the source catches), `some lines`
  models the file's lines as returned by `readlines()` (so a line normally
  still carries its trailing newline).
* Effectful functions become pure functions from their inputs (log contents,
  network reachability, the installer's exit status, the regular log contents
  after the installer ran) to an outcome record that includes the observable
  side effects (whether the network probe ran, whether the installer
  subprocess was launched, which strings were appended to the forced log).
-/

namespace Protonfixes

/-- Python strings, embedded as lists of characters. -/
abbrev PyStr := List Char

/-- The characters Python's `str.strip()` removes by default, restricted to
ASCII: exactly the ASCII characters for which `str.isspace()` is true
(`'\t'`, `'\n'`, `'\x0b'`, `'\x0c'`, `'\r'`, `'\x1c'`–`'\x1f'`, `' '`).  The
log files are opened with `encoding='ascii'`, so no non-ASCII whitespace can
occur in a log line. -/
def isPySpace (c : Char) : Bool :=
  c == ' ' || c == '\t' || c == '\n' || c == '\r' || c == '\x0b' || c == '\x0c' ||
  c == '\x1c' || c == '\x1d' || c == '\x1e' || c == '\x1f'

/-- Python's `str.strip()`: drop whitespace from both ends. -/
def pyStrip (s : PyStr) : PyStr :=
  ((s.dropWhile isPySpace).reverse.dropWhile isPySpace).reverse

/-- Helper for `pySplit`: accumulates the current field (reversed) while
scanning for the separator. -/
def pySplitAux (sep : Char) (acc : PyStr) : PyStr → List PyStr
  | [] => [acc.reverse]
  | c :: cs =>
    if c == sep then acc.reverse :: pySplitAux sep [] cs
    else pySplitAux sep (c :: acc) cs

/-- Python's `str.split(sep)` for a one-character separator: e.g.
`"a=b".split("=") == ["a", "b"]` and `"a".split("=") == ["a"]`. -/
def pySplit (sep : Char) (s : PyStr) : List PyStr :=
  pySplitAux sep [] s

/-- Embeds `util._forceinstalled`: the string appended to
`winetricks.log.forced` is the verb followed by a newline
(`forcedlog.write(f'{verb}\n')`). -/
def forceinstalled_line (verb : PyStr) : PyStr :=
  verb ++ ['\n']

/-- Models the truthiness of `re.findall(r'^' + pat, s)` in
`_checkinstalled`: does the regex `pat` match at the start of `s`?  The
source builds `pat` as the verb's key followed by `'='`, and the key's
characters are live regex metacharacters there.  This embedding interprets
`'.'` as the any-character wildcard and every other pattern character
literally, so it agrees with Python for patterns whose metacharacters are
limited to `'.'`.  Richer constructs (quantifiers, classes, groups,
alternation) never arise in the theorems below, which either restrict the
key to metacharacter-free strings or exercise `'.'`. -/
def reMatchStart : PyStr → PyStr → Bool
  | [], _ => true
  | _ :: _, [] => false
  | pc :: ps, c :: cs => (pc == '.' || pc == c) && reMatchStart ps cs

/-- The characters that are special in a Python regular expression; a key
avoiding all of them is matched literally by `re`. -/
def reMetachars : PyStr := ".^$*+?\x7b\x7d[]\\|()".toList

/-- Embeds `util._checkinstalled(verb, logfile)`.  The log argument is the
content of the named log file (`none` = the file is missing, the `OSError`
branch of the source).

For a verb that splits on `'='` into more than one part, the source scans
every line, and on each line whose stripped form matches the anchored regex
`'^' + wt_verb` (the key followed by `'='`, with the key's characters live
as regex syntax — embedded by `reMatchStart`) it resets the flag to whether
that stripped line equals `wt_verb + wt_verb_param`; so the last line
matching the key decides.  For any other verb, the source tests membership
of the verb in the reversed list of stripped lines. -/
def _checkinstalled (verb : PyStr) (logLines : Option (List PyStr)) : Bool :=
  let parts := pySplit '=' verb
  if parts.length > 1 then
    let wt_verb := parts.getD 0 [] ++ ['=']
    let wt_verb_param := parts.getD 1 []
    match logLines with
    | none => false
    | some lines =>
      lines.foldl
        (fun wt_is_set xline =>
          if reMatchStart wt_verb (pyStrip xline) then
            pyStrip xline == wt_verb ++ wt_verb_param
          else wt_is_set)
        false
  else
    match logLines with
    | none => false
    | some lines => ((lines.map pyStrip).reverse).contains verb

/-- The special verb `'gui'`. -/
def guiVerb : PyStr := "gui".toList

/-- Embeds `util.checkinstalled(verb)`: `'gui'` is special-cased to `False`
before any log file is read; otherwise the forced log
(`winetricks.log.forced`) is consulted first and, only if it does not match,
the regular log (`winetricks.log`). -/
def checkinstalled (verb : PyStr) (forcedLog regularLog : Option (List PyStr)) :
    Bool :=
  if verb == guiVerb then false
  else if _checkinstalled verb forcedLog then true
  else _checkinstalled verb regularLog

/-- Embeds `util.is_custom_verb(verb)`.  `localVerbs` / `bundledVerbs` are
the file names present in `~/.config/protonfixes/localfixes/verbs/` and in
the bundled `verbs/` directory.  The source returns `False` (here `none`)
for `'gui'` and otherwise the path of `<verb>.verb` if such a file exists,
checking the local override directory first. -/
def is_custom_verb (verb : PyStr) (localVerbs bundledVerbs : List PyStr) :
    Option PyStr :=
  if verb == guiVerb then none
  else
    let verb_name := verb ++ ".verb".toList
    if localVerbs.contains verb_name then
      some ("~/.config/protonfixes/localfixes/verbs/".toList ++ verb_name)
    else if bundledVerbs.contains verb_name then
      some ("verbs/".toList ++ verb_name)
    else none

/-- Observable outcome of one `util.protontricks(verb)` call:
the returned boolean, whether `check_internet()` was called, whether the
winetricks subprocess was launched, the command line it was launched with,
and the strings appended to `winetricks.log.forced`. -/
structure ProtontricksOutcome where
  result : Bool
  networkChecked : Bool
  installerInvoked : Bool
  cmd : List PyStr
  forcedWrites : List PyStr
deriving Repr, DecidableEq

/-- Embeds `util.protontricks(verb)` as a function of the ambient state it
reads: the two log files before the call, the result of the network probe
(`internet`), the custom-verb directories, the winetricks binary path, the
installer subprocess's exit status (`installerExit`, only relevant when the
installer is launched) and the regular log's contents after the installer ran
(`regularLogAfter`; the installer never writes the forced log).

Control flow of the source: if `checkinstalled` already succeeds, the whole
body is skipped and the function falls through to its final `return False`.
Otherwise a failed network probe returns `False` without launching anything.
Otherwise the command is built (verb split on spaces; bare `--unattended` for
`'gui'`; a custom verb file path when one exists), the installer runs
(`winetricks_bin` is `os.path.abspath(__file__).replace(...)`, never `None`,
so the launch branch is always taken), and afterwards: non-zero exit returns
`False`; zero exit with the verb still not `checkinstalled` appends the verb
to the forced log and returns `True`; otherwise returns `True`. -/
def protontricks (verb : PyStr) (forcedLog regularLog : Option (List PyStr))
    (internet : Bool) (localVerbs bundledVerbs : List PyStr)
    (winetricks_bin : PyStr) (installerExit : Int)
    (regularLogAfter : Option (List PyStr)) : ProtontricksOutcome :=
  if !checkinstalled verb forcedLog regularLog then
    if !internet then
      { result := false, networkChecked := true, installerInvoked := false,
        cmd := [], forcedWrites := [] }
    else
      let winetricks_cmd :=
        if verb == guiVerb then [winetricks_bin, "--unattended".toList]
        else [winetricks_bin, "--unattended".toList] ++ pySplit ' ' verb
      let winetricks_cmd :=
        match is_custom_verb verb localVerbs bundledVerbs with
        | some custom_verb => [winetricks_bin, "--unattended".toList, custom_verb]
        | none => winetricks_cmd
      if installerExit != 0 then
        { result := false, networkChecked := true, installerInvoked := true,
          cmd := winetricks_cmd, forcedWrites := [] }
      else if !checkinstalled verb forcedLog regularLogAfter then
        { result := true, networkChecked := true, installerInvoked := true,
          cmd := winetricks_cmd, forcedWrites := [forceinstalled_line verb] }
      else
        { result := true, networkChecked := true, installerInvoked := true,
          cmd := winetricks_cmd, forcedWrites := [] }
  else
    { result := false, networkChecked := false, installerInvoked := false,
      cmd := [], forcedWrites := [] }

/-- State seen by the `once` decorator: the set of marker files present under
`PROTONPREFIX/drive_c/protonfixes/run/` (named by the fully qualified
function id), together with whatever state the wrapped function itself acts
on. -/
structure PrefixState (σ : Type) where
  markers : List String
  inner : σ
deriving Repr, DecidableEq

/-- Embeds the `wrapper` closure produced by `util.once(func, retry)`.

The wrapped function is modelled as `f : σ → σ × Except ε ρ`: it transforms
its own state and either returns a value (`Except.ok`) or raises
(`Except.error`).  The wrapper's own caller-visible result is
`Except ε (Option ρ)`: an `Except.error` models the exception re-raised (or
propagated, in retry mode) to the caller, and the `Option ρ` is the value the
caller receives on the non-raising paths — the source's `wrapper` ends every
such path with a bare `return`, so this is always `none`.

Paths of the source: if the marker file exists, return immediately without
calling `func`.  Otherwise run `func`; on an exception with `retry=True`
re-raise at once (no marker is written); on an exception with the default
policy remember the exception, write the marker, then re-raise; on success
write the marker and return.  (The marker directory's creation has no
observable effect beyond the marker files and is not modelled.) -/
def onceWrapper {σ ε ρ : Type} (retry : Bool) (func_id : String)
    (f : σ → σ × Except ε ρ) (s : PrefixState σ) :
    PrefixState σ × Except ε (Option ρ) :=
  if s.markers.contains func_id then (s, Except.ok none)
  else
    match f s.inner with
    | (inner', Except.error exc) =>
      if retry then ({ s with inner := inner' }, Except.error exc)
      else ({ markers := func_id :: s.markers, inner := inner' },
            Except.error exc)
    | (inner', Except.ok _r) =>
      ({ markers := func_id :: s.markers, inner := inner' }, Except.ok none)

/-- A concrete model of a fix function for exercising `onceWrapper`: it
counts its executions in its state and always raises. -/
def alwaysRaises (n : Nat) : Nat × Except String Unit :=
  (n + 1, Except.error "boom")

/-- Lookup in an environment mapping (association list keyed by variable
name; insertion order is kept, as in a Python `dict`). -/
def envLookup (env : List (PyStr × PyStr)) (k : PyStr) : Option PyStr :=
  (env.find? (fun p => p.1 == k)).map (fun p => p.2)

/-- `d[k] = v` on an environment mapping: overwrite in place if the key
exists, else append. -/
def envSet (env : List (PyStr × PyStr)) (k v : PyStr) : List (PyStr × PyStr) :=
  if env.any (fun p => p.1 == k) then
    env.map (fun p => if p.1 == k then (k, v) else p)
  else env ++ [(k, v)]

/-- `if k in d: del d[k]` on an environment mapping. -/
def envDel (env : List (PyStr × PyStr)) (k : PyStr) : List (PyStr × PyStr) :=
  if env.any (fun p => p.1 == k) then env.filter (fun p => p.1 != k)
  else env

/-- Embeds `util.set_environment(envvar, value)`: writes the pair into
`os.environ` and into `protonmain.g_session.env`; returns the two updated
mappings `(os.environ, g_session.env)`. -/
def set_environment (envvar value : PyStr)
    (osEnviron sessionEnv : List (PyStr × PyStr)) :
    List (PyStr × PyStr) × List (PyStr × PyStr) :=
  (envSet osEnviron envvar value, envSet sessionEnv envvar value)

/-- Embeds `util.del_environment(envvar)`: removes the variable from
`os.environ` and from `protonmain.g_session.env`, each guarded by a
membership test; returns the two updated mappings. -/
def del_environment (envvar : PyStr)
    (osEnviron sessionEnv : List (PyStr × PyStr)) :
    List (PyStr × PyStr) × List (PyStr × PyStr) :=
  (envDel osEnviron envvar, envDel sessionEnv envvar)

/-! Lemmas about the environment-mapping helpers. -/

theorem envLookup_map_set (k v : PyStr) :
    ∀ env : List (PyStr × PyStr), env.any (fun p => p.1 == k) = true →
      envLookup (env.map (fun p => if p.1 == k then (k, v) else p)) k = some v := by
  intro env
  induction env with
  | nil => intro h; simp at h
  | cons a t ih =>
    intro h
    by_cases ha : (a.1 == k) = true
    · simp [envLookup, List.find?, ha]
    · have ha' : (a.1 == k) = false := by simpa using ha
      have ht : t.any (fun p => p.1 == k) = true := by
        simpa [List.any_cons, ha'] using h
      simpa [envLookup, List.find?, ha'] using ih ht

theorem envLookup_append_set (k v : PyStr) :
    ∀ env : List (PyStr × PyStr), env.any (fun p => p.1 == k) = false →
      envLookup (env ++ [(k, v)]) k = some v := by
  intro env
  induction env with
  | nil => simp [envLookup, List.find?]
  | cons a t ih =>
    intro h
    have ha : (a.1 == k) = false := by
      by_contra hc
      simp only [Bool.not_eq_false] at hc
      simp [List.any_cons, hc] at h
    have ht : t.any (fun p => p.1 == k) = false := by
      simpa [List.any_cons, ha] using h
    simpa [envLookup, List.find?, ha] using ih ht

theorem envLookup_envSet (env : List (PyStr × PyStr)) (k v : PyStr) :
    envLookup (envSet env k v) k = some v := by
  unfold envSet
  cases h : env.any (fun p => p.1 == k) with
  | true => simpa [h] using envLookup_map_set k v env h
  | false => simpa [h] using envLookup_append_set k v env h

theorem envLookup_filter_del (k : PyStr) :
    ∀ env : List (PyStr × PyStr),
      envLookup (env.filter (fun p => p.1 != k)) k = none := by
  intro env
  induction env with
  | nil => simp [envLookup]
  | cons a t ih =>
    rw [List.filter_cons]
    cases ha : (a.1 == k) with
    | true =>
      have hb : (a.1 != k) = false := by simp [bne, ha]
      rw [hb]
      simp only [Bool.false_eq_true, if_false]
      exact ih
    | false =>
      have hb : (a.1 != k) = true := by simp [bne, ha]
      rw [hb]
      simp only [if_true]
      rw [envLookup, List.find?]
      simp only [ha]
      exact ih

theorem envLookup_eq_none_of_not_any (k : PyStr) :
    ∀ env : List (PyStr × PyStr), env.any (fun p => p.1 == k) = false →
      envLookup env k = none := by
  intro env
  induction env with
  | nil => intro h; simp [envLookup]
  | cons a t ih =>
    intro h
    rw [List.any_cons, Bool.or_eq_false_iff] at h
    simpa [envLookup, List.find?, h.1] using ih h.2

theorem envLookup_envDel (env : List (PyStr × PyStr)) (k : PyStr) :
    envLookup (envDel env k) k = none := by
  unfold envDel
  cases h : env.any (fun p => p.1 == k) with
  | true => simpa [h] using envLookup_filter_del k env
  | false => simpa [h] using envLookup_eq_none_of_not_any k env h

/-- C8: `set_environment` writes the same key/value into both `os.environ`
and the session environment, and `del_environment` removes the key from
both, so after either call the two mappings agree on that key. -/
theorem env_helpers_keep_sync (envvar value : PyStr)
    (osEnviron sessionEnv : List (PyStr × PyStr)) :
    envLookup (set_environment envvar value osEnviron sessionEnv).1 envvar = some value
  ∧ envLookup (set_environment envvar value osEnviron sessionEnv).2 envvar = some value
  ∧ envLookup (del_environment envvar osEnviron sessionEnv).1 envvar = none
  ∧ envLookup (del_environment envvar osEnviron sessionEnv).2 envvar = none :=
  ⟨envLookup_envSet osEnviron envvar value,
   envLookup_envSet sessionEnv envvar value,
   envLookup_envDel osEnviron envvar,
   envLookup_envDel sessionEnv envvar⟩

/-! Theorems about the `once` decorator. -/

/-- C4: with the default policy (`retry=False`), invoking the wrapper twice
in the same prefix runs the underlying operation exactly once (the first call
applies it, the second call returns unchanged without applying it); if the
first run raises, the marker is still written and the exception is re-raised
to the caller. -/
theorem once_default_runs_exactly_once {σ ε ρ : Type} (func_id : String)
    (f : σ → σ × Except ε ρ) (s : PrefixState σ) (h : func_id ∉ s.markers) :
    (onceWrapper false func_id f s).1.inner = (f s.inner).1
  ∧ func_id ∈ (onceWrapper false func_id f s).1.markers
  ∧ (∀ e : ε, (f s.inner).2 = Except.error e →
      (onceWrapper false func_id f s).2 = Except.error e)
  ∧ onceWrapper false func_id f (onceWrapper false func_id f s).1 =
      ((onceWrapper false func_id f s).1, Except.ok none) := by
  rcases hf : f s.inner with ⟨inner', r⟩
  cases r with
  | ok v =>
    have h1 : onceWrapper false func_id f s =
        ({ markers := func_id :: s.markers, inner := inner' }, Except.ok none) := by
      simp [onceWrapper, h, hf]
    refine ⟨by simp [h1], by simp [h1], ?_, ?_⟩
    · intro e he
      exact absurd he (by simp)
    · rw [h1]
      simp [onceWrapper]
  | error e0 =>
    have h1 : onceWrapper false func_id f s =
        ({ markers := func_id :: s.markers, inner := inner' }, Except.error e0) := by
      simp [onceWrapper, h, hf]
    refine ⟨by simp [h1], by simp [h1], ?_, ?_⟩
    · intro e he
      simp only at he
      cases he
      simp [h1]
    · rw [h1]
      simp [onceWrapper]

/-- C4 witness: a function that raises on its first run, wrapped with the
default policy, in a fresh prefix: it runs once, the marker is written, the
exception reaches the caller, and the second invocation is a no-op. -/
theorem once_default_runs_exactly_once_witness :
    (onceWrapper false "protonfixes.fix.main" alwaysRaises
        (PrefixState.mk [] 0)).1.inner = 1
  ∧ "protonfixes.fix.main" ∈ (onceWrapper false "protonfixes.fix.main"
        alwaysRaises (PrefixState.mk [] 0)).1.markers
  ∧ (onceWrapper false "protonfixes.fix.main" alwaysRaises
        (PrefixState.mk [] 0)).2 = Except.error "boom"
  ∧ onceWrapper false "protonfixes.fix.main" alwaysRaises
        (onceWrapper false "protonfixes.fix.main" alwaysRaises
          (PrefixState.mk [] 0)).1 =
      ((onceWrapper false "protonfixes.fix.main" alwaysRaises
          (PrefixState.mk [] 0)).1, Except.ok none) := by
  have h := once_default_runs_exactly_once "protonfixes.fix.main"
    alwaysRaises (PrefixState.mk [] 0) (by simp)
  exact ⟨h.1, h.2.1, h.2.2.1 "boom" rfl, h.2.2.2⟩

/-- C5: with `retry=True`, a raising run propagates the exception and writes
no marker, so a subsequent invocation runs the operation again. -/
theorem once_retry_leaves_no_marker {σ ε ρ : Type} (func_id : String)
    (f : σ → σ × Except ε ρ) (s : PrefixState σ) (e : ε)
    (h : func_id ∉ s.markers) (hraise : (f s.inner).2 = Except.error e) :
    (onceWrapper true func_id f s).2 = Except.error e
  ∧ (onceWrapper true func_id f s).1.markers = s.markers
  ∧ (onceWrapper true func_id f s).1.inner = (f s.inner).1
  ∧ (onceWrapper true func_id f (onceWrapper true func_id f s).1).1.inner =
      (f (f s.inner).1).1 := by
  rcases hf : f s.inner with ⟨inner', r⟩
  rw [hf] at hraise
  cases r with
  | ok v => simp at hraise
  | error e0 =>
    have he : e0 = e := by simpa using hraise
    subst he
    have h1 : onceWrapper true func_id f s =
        ({ s with inner := inner' }, Except.error e0) := by
      simp [onceWrapper, h, hf]
    refine ⟨by simp [h1], by simp [h1], by simp [h1], ?_⟩
    rw [h1]
    rcases hf2 : f inner' with ⟨inner'', r2⟩
    cases r2 with
    | ok v2 => simp [onceWrapper, h, hf2]
    | error e2 => simp [onceWrapper, h, hf2]

/-- C5 witness: a function that always raises, wrapped with `retry=True`, in
a fresh prefix: the exception propagates, no marker is written, and the
second invocation runs the operation again. -/
theorem once_retry_leaves_no_marker_witness :
    (onceWrapper true "protonfixes.fix.main" alwaysRaises
        (PrefixState.mk [] 0)).2 = Except.error "boom"
  ∧ (onceWrapper true "protonfixes.fix.main" alwaysRaises
        (PrefixState.mk [] 0)).1.markers = []
  ∧ (onceWrapper true "protonfixes.fix.main" alwaysRaises
        (onceWrapper true "protonfixes.fix.main" alwaysRaises
          (PrefixState.mk [] 0)).1).1.inner = 2 := by
  have h := once_retry_leaves_no_marker "protonfixes.fix.main"
    alwaysRaises (PrefixState.mk [] 0) "boom" (by simp) rfl
  exact ⟨h.1, h.2.1, h.2.2.2⟩

/-- C9: the wrapper produced by `once` never hands the wrapped function's
return value to the caller: on every non-raising path the caller receives
`None`, and otherwise an exception — even when the wrapped function (such as
`disable_uplay_overlay`, declared to return `bool`) returns a value. -/
theorem once_wrapper_discards_return_value {σ ε ρ : Type} (retry : Bool)
    (func_id : String) (f : σ → σ × Except ε ρ) (s : PrefixState σ) :
    (onceWrapper retry func_id f s).2 = Except.ok none
  ∨ ∃ e : ε, (onceWrapper retry func_id f s).2 = Except.error e := by
  unfold onceWrapper
  by_cases hc : func_id ∈ s.markers
  · simp [hc]
  · rcases hf : f s.inner with ⟨inner', r⟩
    cases r with
    | ok v => simp [hc, hf]
    | error e0 => cases retry <;> simp [hc, hf]

/-! Lemmas about `pySplit` and the log-scanning fold. -/

theorem pySplitAux_no_sep (sep : Char) :
    ∀ s : PyStr, sep ∉ s →
      ∀ acc : PyStr, pySplitAux sep acc s = [acc.reverse ++ s] := by
  intro s
  induction s with
  | nil => intro _ acc; simp [pySplitAux]
  | cons c cs ih =>
    intro h acc
    have hc : (c == sep) = false := by
      rw [beq_eq_false_iff_ne]
      intro he
      apply h
      rw [he]
      exact List.mem_cons_self sep cs
    have hcs : sep ∉ cs := fun hm => h (List.mem_cons_of_mem c hm)
    rw [pySplitAux]
    simp [hc, ih hcs (c :: acc)]

theorem pySplit_no_sep (sep : Char) (s : PyStr) (h : sep ∉ s) :
    pySplit sep s = [s] := by
  simpa [pySplit] using pySplitAux_no_sep sep s h []

theorem pySplitAux_key_value (v : PyStr) (hv : '=' ∉ v) :
    ∀ k : PyStr, '=' ∉ k →
      ∀ acc : PyStr, pySplitAux '=' acc (k ++ '=' :: v) = [acc.reverse ++ k, v] := by
  intro k
  induction k with
  | nil =>
    intro _ acc
    rw [List.nil_append, pySplitAux]
    simp [pySplitAux_no_sep '=' v hv []]
  | cons c cs ih =>
    intro h acc
    have hc : (c == '=') = false := by
      rw [beq_eq_false_iff_ne]
      intro he
      apply h
      rw [he]
      exact List.mem_cons_self '=' cs
    have hcs : '=' ∉ cs := fun hm => h (List.mem_cons_of_mem c hm)
    rw [List.cons_append, pySplitAux]
    simp [hc, ih hcs (c :: acc)]

theorem pySplit_key_value (k v : PyStr) (hk : '=' ∉ k) (hv : '=' ∉ v) :
    pySplit '=' (k ++ '=' :: v) = [k, v] := by
  simpa [pySplit] using pySplitAux_key_value v hv k hk []

/-- A regex pattern without the `'.'` wildcard (and, in the use below,
without any other metacharacter) matches at the start of a string exactly
when it is a literal prefix of it. -/
theorem reMatchStart_of_no_wildcard :
    ∀ p : PyStr, '.' ∉ p → ∀ s : PyStr, reMatchStart p s = p.isPrefixOf s := by
  intro p
  induction p with
  | nil => intro _ s; cases s <;> simp [reMatchStart, List.isPrefixOf]
  | cons pc ps ih =>
    intro h s
    have hpc : (pc == '.') = false := by
      rw [beq_eq_false_iff_ne]
      intro he
      apply h
      rw [he]
      exact List.mem_cons_self '.' ps
    have hps : '.' ∉ ps := fun hm => h (List.mem_cons_of_mem pc hm)
    cases s with
    | nil => simp [reMatchStart, List.isPrefixOf]
    | cons c cs => simp [reMatchStart, List.isPrefixOf, hpc, ih hps cs]

/-- The scan over the log lines in `_checkinstalled`'s `key=value` branch:
the flag ends up determined by the last stripped line satisfying the prefix
test `p`, compared against the target `t`; if no line matches, the
accumulator (initially `False`) survives. -/
theorem foldl_last_match (p : PyStr → Bool) (t : PyStr) :
    ∀ (lines : List PyStr) (acc : Bool),
      lines.foldl
        (fun wt_is_set xline =>
          if p (pyStrip xline) then pyStrip xline == t else wt_is_set) acc
      = (match ((lines.map pyStrip).filter p).getLast? with
         | some l => l == t
         | none => acc) := by
  intro lines
  induction lines using List.reverseRecOn with
  | nil => intro acc; simp
  | append_singleton ls x ih =>
    intro acc
    rw [List.foldl_append]
    simp only [List.foldl_cons, List.foldl_nil]
    rw [ih]
    rw [List.map_append, List.filter_append]
    simp only [List.map_cons, List.map_nil, List.filter_cons, List.filter_nil]
    cases hp : p (pyStrip x) with
    | true => simp [List.getLast?_concat]
    | false => simp

/-! Theorems about `checkinstalled` and `protontricks`. -/

/-- C2 counterexample: the key of the verb `a.b=c` contains the regex
metacharacter `'.'`, so the source's anchored pattern `^a.b=` also matches
the later line `axb=q`, whose value differs; the check therefore returns
`False` even though the most recent log line with the literal prefix `a.b=`
is exactly `a.b=c` — refuting the claimed iff for general `key=value`
verbs. -/
theorem checkinstalled_matching_rule_counterexample :
    ((["a.b=c\n".toList, "axb=q\n".toList].map pyStrip).filter
        (fun l => ("a.b=".toList).isPrefixOf l)).getLast? = some "a.b=c".toList
  ∧ _checkinstalled "a.b=c".toList
      (some ["a.b=c\n".toList, "axb=q\n".toList]) = false := by
  decide

/-- C2 (amended): for a verb of the form `key=value` (one `'='`) whose key
contains no Python regex metacharacter, `_checkinstalled` returns `True` iff
the most recent stripped log line with prefix `key=` is exactly `key=value`;
for a bare verb (no `'='`), it returns `True` iff the verb appears as a
stripped line anywhere in the log. -/
theorem checkinstalled_matching_rule :
    (∀ (k v : PyStr) (lines : List PyStr),
      (∀ c ∈ k, c ∉ reMetachars) → '=' ∉ k → '=' ∉ v →
      (_checkinstalled (k ++ '=' :: v) (some lines) = true ↔
        ((lines.map pyStrip).filter
          (fun l => (k ++ ['=']).isPrefixOf l)).getLast? = some (k ++ '=' :: v)))
  ∧ (∀ (verb : PyStr) (lines : List PyStr), '=' ∉ verb →
      (_checkinstalled verb (some lines) = true ↔ verb ∈ lines.map pyStrip)) := by
  constructor
  · intro k v lines hmeta hk hv
    have hsplit := pySplit_key_value k v hk hv
    have ht : (k ++ ['=']) ++ v = k ++ '=' :: v := by simp
    have hdot : '.' ∉ k ++ ['='] := by
      intro hm
      rcases List.mem_append.mp hm with h1 | h1
      · exact hmeta '.' h1 (by decide)
      · simp at h1
    simp only [_checkinstalled, hsplit, List.length_cons, List.length_nil,
      List.getD, List.get?_cons_zero, List.get?_cons_succ, Option.getD_some]
    rw [if_pos (by omega)]
    simp only [reMatchStart_of_no_wildcard (k ++ ['=']) hdot]
    rw [foldl_last_match (fun l => (k ++ ['=']).isPrefixOf l) ((k ++ ['=']) ++ v)
      lines false]
    rw [ht]
    cases hl : ((lines.map pyStrip).filter
        (fun l => (k ++ ['=']).isPrefixOf l)).getLast? with
    | none => simp
    | some l => simp
  · intro verb lines hverb
    have hsplit := pySplit_no_sep '=' verb hverb
    simp only [_checkinstalled, hsplit, List.length_cons, List.length_nil]
    rw [if_neg (by omega)]
    simp [List.contains, List.elem_eq_mem, List.mem_reverse]

/-- C2 witness: a metacharacter-free `key=value` verb matched by the latest
`videomemorysize=` line, and a bare verb matched by a stripped line. -/
theorem checkinstalled_matching_rule_witness :
    _checkinstalled ("videomemorysize".toList ++ '=' :: "1024".toList)
        (some ["videomemorysize=512\n".toList, "videomemorysize=1024\n".toList]) = true
  ∧ _checkinstalled "mfc42".toList (some ["  mfc42\n".toList]) = true := by
  constructor
  · exact (checkinstalled_matching_rule.1 "videomemorysize".toList "1024".toList
      ["videomemorysize=512\n".toList, "videomemorysize=1024\n".toList]
      (by decide) (by decide) (by decide)).mpr (by decide)
  · exact (checkinstalled_matching_rule.2 "mfc42".toList ["  mfc42\n".toList]
      (by decide)).mpr (by decide)

/-- C1 counterexample: the verb `vcrun2019` is installed (present in the
regular log), yet `protontricks` returns `False` for it, refuting the claim
that it "returns success" for installed verbs.  It does return immediately:
no network check, no installer launch. -/
theorem protontricks_installed_counterexample :
    checkinstalled "vcrun2019".toList (some []) (some ["vcrun2019\n".toList]) = true
  ∧ (protontricks "vcrun2019".toList (some []) (some ["vcrun2019\n".toList])
      true [] [] "winetricks".toList 0 (some ["vcrun2019\n".toList])).result = false := by
  decide

/-- C1 (amended): for every verb that is already installed per
`checkinstalled`, `protontricks` returns immediately with `False` (the
function body is skipped and the final `return False` is reached), never
checking the network, never launching the installer, and writing nothing to
the forced log. -/
theorem protontricks_installed_skips_installer (verb : PyStr)
    (forcedLog regularLog : Option (List PyStr)) (internet : Bool)
    (localVerbs bundledVerbs : List PyStr) (winetricks_bin : PyStr)
    (installerExit : Int) (regularLogAfter : Option (List PyStr))
    (h : checkinstalled verb forcedLog regularLog = true) :
    protontricks verb forcedLog regularLog internet localVerbs bundledVerbs
        winetricks_bin installerExit regularLogAfter =
      { result := false, networkChecked := false, installerInvoked := false,
        cmd := [], forcedWrites := [] } := by
  simp [protontricks, h]

/-- C1 witness: `vcrun2019` present in the regular log. -/
theorem protontricks_installed_skips_installer_witness :
    protontricks "vcrun2019".toList (some []) (some ["vcrun2019\n".toList])
        true [] [] "winetricks".toList 0 (some ["vcrun2019\n".toList]) =
      { result := false, networkChecked := false, installerInvoked := false,
        cmd := [], forcedWrites := [] } :=
  protontricks_installed_skips_installer "vcrun2019".toList (some [])
    (some ["vcrun2019\n".toList]) true [] [] "winetricks".toList 0
    (some ["vcrun2019\n".toList]) (by decide)

/-- C3 counterexample: the verb `gui` is present in the forced log (the
forced-log check itself matches it), yet `checkinstalled` returns `False`
because of the `gui` special case, refuting "for every verb present in the
forced log". -/
theorem checkinstalled_gui_forced_counterexample :
    _checkinstalled "gui".toList (some ["gui\n".toList]) = true
  ∧ checkinstalled "gui".toList (some ["gui\n".toList]) (some []) = false := by
  decide

/-- C3 (amended): for every verb other than `gui` that the forced-log check
matches, `checkinstalled` returns `True` regardless of the regular log. -/
theorem checkinstalled_forced_log_wins (verb : PyStr)
    (forcedLog regularLog : Option (List PyStr))
    (hne : verb ≠ guiVerb)
    (h : _checkinstalled verb forcedLog = true) :
    checkinstalled verb forcedLog regularLog = true := by
  cases hv : (verb == guiVerb) with
  | true => exact absurd (by simpa using hv) hne
  | false => simp [checkinstalled, hv, h]

/-- C3 witness: `mfc42` in the forced log, empty regular log. -/
theorem checkinstalled_forced_log_wins_witness :
    checkinstalled "mfc42".toList (some ["mfc42\n".toList]) (some []) = true :=
  checkinstalled_forced_log_wins "mfc42".toList (some ["mfc42\n".toList])
    (some []) (by decide) (by decide)

/-- C6: for a verb that is not installed, if the network probe fails,
`protontricks` returns `False` and the installer subprocess is never
launched. -/
theorem protontricks_no_internet_skips_installer (verb : PyStr)
    (forcedLog regularLog : Option (List PyStr))
    (localVerbs bundledVerbs : List PyStr) (winetricks_bin : PyStr)
    (installerExit : Int) (regularLogAfter : Option (List PyStr))
    (h : checkinstalled verb forcedLog regularLog = false) :
    (protontricks verb forcedLog regularLog false localVerbs bundledVerbs
        winetricks_bin installerExit regularLogAfter).result = false
  ∧ (protontricks verb forcedLog regularLog false localVerbs bundledVerbs
        winetricks_bin installerExit regularLogAfter).installerInvoked = false := by
  simp [protontricks, h]

/-- C6 witness: `d3dx11_43` absent from both logs, network unreachable. -/
theorem protontricks_no_internet_skips_installer_witness :
    (protontricks "d3dx11_43".toList (some []) (some []) false [] []
        "winetricks".toList 0 (some [])).result = false
  ∧ (protontricks "d3dx11_43".toList (some []) (some []) false [] []
        "winetricks".toList 0 (some [])).installerInvoked = false :=
  protontricks_no_internet_skips_installer "d3dx11_43".toList (some [])
    (some []) [] [] "winetricks".toList 0 (some []) (by decide)

/-- C7: for a verb that is not installed, with the network reachable, after
the installer exits: non-zero exit status gives `False` with no forced-log
write; zero exit with the verb then found installed gives `True` with no
forced-log write; zero exit with the verb still not found installed appends
exactly one line containing the verb to the forced log and gives `True`. -/
theorem protontricks_post_installer (verb : PyStr)
    (forcedLog regularLog : Option (List PyStr))
    (localVerbs bundledVerbs : List PyStr) (winetricks_bin : PyStr)
    (installerExit : Int) (regularLogAfter : Option (List PyStr))
    (h : checkinstalled verb forcedLog regularLog = false) :
    (installerExit ≠ 0 →
      (protontricks verb forcedLog regularLog true localVerbs bundledVerbs
          winetricks_bin installerExit regularLogAfter).result = false
      ∧ (protontricks verb forcedLog regularLog true localVerbs bundledVerbs
          winetricks_bin installerExit regularLogAfter).forcedWrites = [])
  ∧ (installerExit = 0 → checkinstalled verb forcedLog regularLogAfter = true →
      (protontricks verb forcedLog regularLog true localVerbs bundledVerbs
          winetricks_bin installerExit regularLogAfter).result = true
      ∧ (protontricks verb forcedLog regularLog true localVerbs bundledVerbs
          winetricks_bin installerExit regularLogAfter).forcedWrites = [])
  ∧ (installerExit = 0 → checkinstalled verb forcedLog regularLogAfter = false →
      (protontricks verb forcedLog regularLog true localVerbs bundledVerbs
          winetricks_bin installerExit regularLogAfter).result = true
      ∧ (protontricks verb forcedLog regularLog true localVerbs bundledVerbs
          winetricks_bin installerExit regularLogAfter).forcedWrites =
            [forceinstalled_line verb]) := by
  refine ⟨?_, ?_, ?_⟩
  · intro hec
    constructor <;> simp [protontricks, h, hec]
  · intro hec hinst
    subst hec
    constructor <;> simp [protontricks, h, hinst]
  · intro hec hinst
    subst hec
    constructor <;> simp [protontricks, h, hinst]

/-- C7 witness: the spec's example `d3dx11_43`, absent from both logs,
installer exits 0 and the verb appears in the regular log: success without a
forced-log write; and, with the verb still absent afterwards, success with
exactly the line `d3dx11_43\n` appended to the forced log. -/
theorem protontricks_post_installer_witness :
    ((protontricks "d3dx11_43".toList (some []) (some []) true [] []
        "winetricks".toList 0 (some ["d3dx11_43\n".toList])).result = true
    ∧ (protontricks "d3dx11_43".toList (some []) (some []) true [] []
        "winetricks".toList 0 (some ["d3dx11_43\n".toList])).forcedWrites = [])
  ∧ ((protontricks "d3dx11_43".toList (some []) (some []) true [] []
        "winetricks".toList 0 (some [])).result = true
    ∧ (protontricks "d3dx11_43".toList (some []) (some []) true [] []
        "winetricks".toList 0 (some [])).forcedWrites =
          [forceinstalled_line "d3dx11_43".toList]) :=
  ⟨(protontricks_post_installer "d3dx11_43".toList (some []) (some []) [] []
      "winetricks".toList 0 (some ["d3dx11_43\n".toList]) (by decide)).2.1
    rfl (by decide),
   (protontricks_post_installer "d3dx11_43".toList (some []) (some []) [] []
      "winetricks".toList 0 (some []) (by decide)).2.2
    rfl (by decide)⟩

/-- C10: for the verb `gui`, `checkinstalled` is `False` whatever the logs
contain, `is_custom_verb` finds nothing whatever verb files exist, and
`protontricks 'gui'` therefore always reaches the network check (with the
network up it always launches the installer; with it down the probe still
ran). -/
theorem protontricks_gui_never_short_circuits
    (forcedLog regularLog : Option (List PyStr))
    (localVerbs bundledVerbs : List PyStr) (winetricks_bin : PyStr)
    (installerExit : Int) (regularLogAfter : Option (List PyStr)) :
    checkinstalled guiVerb forcedLog regularLog = false
  ∧ is_custom_verb guiVerb localVerbs bundledVerbs = none
  ∧ (protontricks guiVerb forcedLog regularLog true localVerbs
      bundledVerbs winetricks_bin installerExit regularLogAfter).networkChecked = true
  ∧ (protontricks guiVerb forcedLog regularLog true localVerbs
      bundledVerbs winetricks_bin installerExit regularLogAfter).installerInvoked = true
  ∧ (protontricks guiVerb forcedLog regularLog false localVerbs
      bundledVerbs winetricks_bin installerExit regularLogAfter).networkChecked = true := by
  have hchk : ∀ reg : Option (List PyStr),
      checkinstalled guiVerb forcedLog reg = false := by
    intro reg
    simp [checkinstalled]
  refine ⟨hchk regularLog, by simp [is_custom_verb], ?_, ?_, ?_⟩
  · by_cases hec : installerExit = 0 <;> simp [protontricks, hchk, hec]
  · by_cases hec : installerExit = 0 <;> simp [protontricks, hchk, hec]
  · simp [protontricks, hchk]

end Protonfixes

namespace Examples
example : Protonfixes.pySplit '=' "a=b".toList = ["a".toList, "b".toList] := by decide
example : Protonfixes.pySplit '=' "abc".toList = ["abc".toList] := by decide
example : Protonfixes.pyStrip " ab c\n".toList = "ab c".toList := by decide
example : Protonfixes._checkinstalled "mfc42".toList (some ["quartz\n".toList, "mfc42\n".toList]) = true := by decide
example : Protonfixes._checkinstalled "sound=alsa".toList (some ["sound=alsa\n".toList, "sound=pulse\n".toList]) = false := by decide
example : Protonfixes._checkinstalled "sound=alsa".toList (some ["sound=pulse\n".toList, "sound=alsa\n".toList]) = true := by decide
example : Protonfixes.checkinstalled "gui".toList (some ["gui\n".toList]) (some ["gui\n".toList]) = false := by decide
example :
    (Protonfixes.protontricks "d3dx11_43".toList (some []) (some []) true [] []
      "winetricks".toList 0 (some ["d3dx11_43\n".toList])).result = true := by decide
example :
    (Protonfixes.protontricks "d3dx11_43".toList (some []) (some []) true [] []
      "winetricks".toList 0 (some [])).forcedWrites = ["d3dx11_43\n".toList] := by decide
example :
    (Protonfixes.protontricks "vcrun2019".toList (some []) (some ["vcrun2019\n".toList]) true [] []
      "winetricks".toList 0 (some [])).result = false := by decide
end Examples
